import Mathlib

/-!
# Authorization engine of node-red-contrib-google-smarthome

A shallow embedding of `lib/Auth.js` (class `Auth`) and theorems about it.

Conventions of the embedding:

* `this._auth` is an `AuthValue`: `null` (what the constructor stores), `undefined`
  (what `storage.getItemSync` answers for a missing entry) or an authorization state
  `{tokens, authcodes}` whose two maps are plain JavaScript objects.
* A plain object is the list of its own enumerable properties in `Object.keys` order;
  a property read `o[k]` that finds no own property continues in `Object.prototype`.
* Time values (`Date.now()`, the time value of a `Date`) are integers, in milliseconds.
  An invalid `Date` (time value `NaN`) is `none`.
* A method that reads `this._auth.tokens` or `this._auth.authcodes` throws a `TypeError`
  when `this._auth` is `null` or `undefined`; thrown exceptions are `Except.error`.
* The random generator, the clock, `JSON` and the two stores (file system, node-persist)
  are not part of `Auth.js`; their answers are explicit arguments.
* Calls of `this.debug` only log and are left out.
-/

namespace SmartHome

/-! ## Values -/

/-- Exceptions thrown by the JavaScript runtime and its libraries. -/
inductive JSError where
  | typeError
  | enoent
  | syntaxError
  | writeFailed
deriving DecidableEq, Repr

/-- Equality of method outcomes is decidable. -/
instance instDecidableEqExcept {ε α : Type} [DecidableEq ε] [DecidableEq α] :
    DecidableEq (Except ε α)
  | .ok a, .ok b => if h : a = b then isTrue (by rw [h]) else isFalse (fun h' => h (by cases h'; rfl))
  | .error a, .error b =>
    if h : a = b then isTrue (by rw [h]) else isFalse (fun h' => h (by cases h'; rfl))
  | .ok _, .error _ => isFalse (fun h => by cases h)
  | .error _, .ok _ => isFalse (fun h => by cases h)

/-- Alphabet `TokenGenerator.BASE58` of the uuid-token-generator package. -/
def base58Alphabet : List Char :=
  ['1', '2', '3', '4', '5', '6', '7', '8', '9',
   'A', 'B', 'C', 'D', 'E', 'F', 'G', 'H', 'J', 'K', 'L', 'M', 'N', 'P', 'Q', 'R', 'S', 'T',
   'U', 'V', 'W', 'X', 'Y', 'Z',
   'a', 'b', 'c', 'd', 'e', 'f', 'g', 'h', 'i', 'j', 'k', 'm', 'n', 'o', 'p', 'q', 'r', 's',
   't', 'u', 'v', 'w', 'x', 'y', 'z']

/-- A string returned by `genRandomString()`, that is by
`new TokenGenerator(256, TokenGenerator.BASE58).generate()`: every character belongs to the
base58 alphabet. -/
structure Token where
  val : String
  base58 : val.toList.all (fun c => base58Alphabet.contains c) = true

/-- Value stored in the token map by `_addToken`. -/
structure TokenRecord where
  accessToken : String
  refreshToken : String
deriving DecidableEq, Repr

/-- Value stored in the auth-code map by `generateAuthCode`; `expiresAt` is the time value of
`new Date(record.expiresAt)`. -/
structure AuthCodeRecord where
  expiresAt : Int
deriving DecidableEq, Repr

/-! ## Plain objects -/

/-- A plain object (made by an object literal or by `JSON.parse`): its own enumerable
properties, in the order in which `Object.keys` lists them. Its prototype is
`Object.prototype`. -/
structure JSObject (α : Type) where
  props : List (String × α)
deriving DecidableEq, Repr

/-- Names of the properties every plain object inherits from `Object.prototype`. -/
def objectPrototypeNames : List String :=
  ["constructor", "__defineGetter__", "__defineSetter__", "hasOwnProperty",
   "__lookupGetter__", "__lookupSetter__", "isPrototypeOf", "propertyIsEnumerable",
   "toString", "valueOf", "__proto__", "toLocaleString"]

/-- Result of the property read `o[k]` on a plain object whose own values have type `α`. -/
inductive Member (α : Type) where
  /-- An own property holds the value. -/
  | own (v : α)
  /-- No own property; the value comes from `Object.prototype`: a built-in function, or
  `Object.prototype` itself for `__proto__`. -/
  | inherited (name : String)
  /-- Neither the object nor its prototype has the property. -/
  | undefined
deriving DecidableEq, Repr

/-- Truthiness of a property read: records, functions and `Object.prototype` are objects,
hence truthy; `undefined` is falsy. -/
def Member.truthy {α : Type} : Member α → Bool
  | .own _ => true
  | .inherited _ => true
  | .undefined => false

/-- First own property named `k` in a property list. -/
def getOwnProps {α : Type} (k : String) : List (String × α) → Option α
  | [] => none
  | (k', v) :: rest => if k' = k then some v else getOwnProps k rest

namespace JSObject

variable {α : Type}

/-- The empty object literal. -/
def empty : JSObject α := ⟨[]⟩

/-- List returned by `Object.keys(o)`. -/
def keys (o : JSObject α) : List String := o.props.map Prod.fst

/-- Own property `k` of `o`, when there is one. -/
def getOwn (o : JSObject α) (k : String) : Option α := getOwnProps k o.props

/-- Property read `o[k]`: own properties first, then `Object.prototype`. -/
def get (o : JSObject α) (k : String) : Member α :=
  match o.getOwn k with
  | some v => .own v
  | none => if k ∈ objectPrototypeNames then .inherited k else .undefined

end JSObject

/-- Value of a decimal digit. -/
def digitValue (c : Char) : Option Nat :=
  if c.isDigit then some (c.toNat - 48) else none

/-- Number written by a list of decimal digits, read onto the accumulator `acc`. -/
def decimalValue (acc : Nat) : List Char → Option Nat
  | [] => some acc
  | c :: cs =>
    match digitValue c with
    | some d => decimalValue (acc * 10 + d) cs
    | none => none

/-- Array index denoted by a property key: the key is the canonical decimal form of an
integer below `2^32 - 1`. -/
def arrayIndex (k : String) : Option Nat :=
  match k.toList with
  | [] => none
  | [c] => digitValue c
  | c :: cs =>
    if c = '0' then none
    else
      match decimalValue 0 (c :: cs) with
      | some n => if n < 4294967295 then some n else none
      | none => none

/-- Replace the value of the first property named `k`. -/
def replaceOwn {α : Type} (k : String) (v : α) : List (String × α) → List (String × α)
  | [] => []
  | (k', v') :: rest => if k' = k then (k', v) :: rest else (k', v') :: replaceOwn k v rest

/-- Add a new property whose key is the array index `i`: index keys come first, in
ascending order. -/
def insertIndexed {α : Type} (i : Nat) (k : String) (v : α) :
    List (String × α) → List (String × α)
  | [] => [(k, v)]
  | (k', v') :: rest =>
    match arrayIndex k' with
    | some j => if j < i then (k', v') :: insertIndexed i k v rest else (k, v) :: (k', v') :: rest
    | none => (k, v) :: (k', v') :: rest

/-- Assignment `o[k] = v` for a key `k` made by the random generator. An existing own
property keeps its place; a new one is created (also when `Object.prototype` has a data
property of that name), after the existing keys unless it is an array index. -/
def JSObject.set {α : Type} (o : JSObject α) (k : Token) (v : α) : JSObject α :=
  if (o.getOwn k.val).isSome then ⟨replaceOwn k.val v o.props⟩
  else
    match arrayIndex k.val with
    | some i => ⟨insertIndexed i k.val v o.props⟩
    | none => ⟨o.props ++ [(k.val, v)]⟩

/-! ## Authorization state -/

/-- The object `{tokens, authcodes}` held in `this._auth`. -/
structure AuthState where
  tokens : JSObject TokenRecord
  authcodes : JSObject AuthCodeRecord
deriving DecidableEq, Repr

/-- Values `this._auth` takes. -/
inductive AuthValue where
  | null
  | undefined
  | state (s : AuthState)
deriving DecidableEq, Repr

/-- Truthiness of `this._auth`. -/
def AuthValue.truthy : AuthValue → Bool
  | .state _ => true
  | _ => false

/-- Test `typeof v === 'undefined'`. -/
def AuthValue.typeofUndefined : AuthValue → Bool
  | .undefined => true
  | _ => false

/-- Fields of an `Auth` object (`_tokenGen` and `_jwtkey` play no part here). -/
structure Auth where
  _clientId : String
  _clientSecret : String
  _username : String
  _password : String
  _auth : AuthValue
  _authFilename : Option String
deriving DecidableEq, Repr

/-- Object returned by a successful `getAccessToken`; a field is `none` when the JavaScript
value is `undefined`. -/
structure ReturnToken where
  token_type : String
  access_token : Option String
  refresh_token : Option String
deriving DecidableEq, Repr

/-- Value returned by `getAccessToken`: `false` or a token object. -/
inductive ExchangeResult where
  | jsFalse
  | returnToken (t : ReturnToken)
deriving DecidableEq, Repr

namespace Auth

/-- State after `constructor()`. -/
def new : Auth :=
  { _clientId := "", _clientSecret := "", _username := "", _password := "",
    _auth := .null, _authFilename := none }

/-- Evaluation of `this._auth` as the object of a property read (`this._auth.tokens`,
`this._auth.authcodes`): a `TypeError` for `null` and `undefined`. -/
def authObject (a : Auth) : Except JSError AuthState :=
  match a._auth with
  | .state s => .ok s
  | .null => .error .typeError
  | .undefined => .error .typeError

/-- Method `setClientIdSecret(clientid, clientsecret)`. -/
def setClientIdSecret (a : Auth) (clientid clientsecret : String) : Auth :=
  { a with _clientId := clientid, _clientSecret := clientsecret }

/-- Method `setUsernamePassword(username, password)`. -/
def setUsernamePassword (a : Auth) (username password : String) : Auth :=
  { a with _username := username, _password := password }

/-- Method `isValidUser(username, password)`. -/
def isValidUser (a : Auth) (username password : String) : Bool :=
  if a._username ≠ username then false
  else if a._password ≠ password then false
  else true

/-- Method `generateAuthCode()`; `now` is `Date.now()` and `authCode` the string returned by
`genRandomString()`. Returns the code and the state left behind. -/
def generateAuthCode (a : Auth) (now : Int) (authCode : Token) :
    Except JSError (String × Auth) := do
  let s ← a.authObject
  let s' : AuthState :=
    { s with authcodes := s.authcodes.set authCode { expiresAt := now + (60 * 10000) } }
  return (authCode.val, { a with _auth := .state s' })

/-- Method `getAuthCode(code)`. -/
def getAuthCode (a : Auth) (code : String) : Except JSError (Member AuthCodeRecord) := do
  let s ← a.authObject
  return s.authcodes.get code

/-- Method `isValidClient(clientId, clientSecret)` called with one argument
(`clientSecret = none`) or with two; `arguments.length == 2` holds in the second case. -/
def isValidClient (a : Auth) (clientId : String) (clientSecret : Option String) : Bool :=
  if a._clientId ≠ clientId then false
  else
    match clientSecret with
    | some secret => if a._clientSecret ≠ secret then false else true
    | none => true

/-- Time value of `new Date(authCode.expiresAt)`: a record has the field; a value inherited
from `Object.prototype` has no such property, and `new Date(undefined)` is invalid. -/
def newDateExpiresAt : Member AuthCodeRecord → Option Int
  | .own r => some r.expiresAt
  | .inherited _ => none
  | .undefined => none

/-- Comparison `date < Date.now()`; an invalid date converts to `NaN`, which compares
false. -/
def dateLt (date : Option Int) (now : Int) : Bool :=
  match date with
  | some t => decide (t < now)
  | none => false

/-- Property key made from `Object.keys(o)[0]`: the first key, or the string `"undefined"`
when there is none. -/
def firstKey (ks : List String) : String :=
  match ks with
  | k :: _ => k
  | [] => "undefined"

/-- Method `getAccessToken(code)`; `now` is `Date.now()`. Returns the result together with
the state left behind. -/
def getAccessToken (a : Auth) (now : Int) (code : String) :
    Except JSError (ExchangeResult × Auth) := do
  let s ← a.authObject
  let authCode := s.authcodes.get code
  if !authCode.truthy then
    return (.jsFalse, a)
  if dateLt (newDateExpiresAt authCode) now then
    return (.jsFalse, a)
  let accessToken := s.tokens.get (firstKey s.tokens.keys)
  match accessToken with
  | .undefined => return (.jsFalse, a)
  | .own r =>
    return (.returnToken
      { token_type := "bearer", access_token := some r.accessToken,
        refresh_token := some r.refreshToken }, a)
  | .inherited _ =>
    return (.returnToken
      { token_type := "bearer", access_token := none, refresh_token := none }, a)

/-- Method `isValidAccessToken(accessToken)`. -/
def isValidAccessToken (a : Auth) (accessToken : String) : Except JSError Bool := do
  let s ← a.authObject
  if (s.tokens.get accessToken).truthy then return true else return false

end Auth

/-! ## Stores outside the object -/

/-- The built-in `JSON` object, as far as `Auth.js` uses it on the auth file: `parse` answers
`none` when `JSON.parse` throws a `SyntaxError`, otherwise the state written in the text
(`JSON.parse` never answers `undefined`). -/
structure JSON where
  parse : String → Option AuthState
  stringify : AuthState → String

/-- What `Auth.js` reaches through `fs` and `node-persist`: the files by path, the paths at
which a write succeeds (a path in a missing or read-only directory is not one), and the
node-persist entry `'auth_auth'` of the legacy store. -/
structure World where
  files : String → Option String
  writable : String → Bool
  auth_auth : Option AuthState

namespace World

/-- Call `fs.existsSync(path)`; it answers `false` for a path that is `null`. -/
def existsSync (w : World) (path : Option String) : Bool :=
  match path with
  | some p => (w.files p).isSome
  | none => false

/-- Call `fs.readFileSync(path)` on a string path. -/
def readFileSync (w : World) (path : String) : Except JSError String :=
  match w.files path with
  | some text => .ok text
  | none => .error .enoent

/-- Call `fs.writeFileSync(path, data)` on a string path: it stores the text, or throws
where the path cannot be written. -/
def writeFileSync (w : World) (path : String) (data : String) : Except JSError World :=
  if w.writable path then
    .ok { w with files := fun p => if p = path then some data else w.files p }
  else .error .writeFailed

/-- Call `storage.getItemSync('auth_auth')`. -/
def getItemSync (w : World) : AuthValue :=
  match w.auth_auth with
  | some s => .state s
  | none => .undefined

/-- Call `storage.removeItem('auth_auth')`, taken at the point where the removal has been
carried out. -/
def removeItem (w : World) : World :=
  { w with auth_auth := none }

end World

namespace Auth

/-- Statement `fs.writeFileSync(this._authFilename, JSON.stringify(this._auth))`. Besides a
failing write it throws when `_authFilename` is still `null` and when `JSON.stringify`
answers `undefined`. -/
def writeAuthFile (J : JSON) (a : Auth) (w : World) : Except JSError World :=
  match a._authFilename, a._auth with
  | some path, .state s => w.writeFileSync path (J.stringify s)
  | some path, .null => w.writeFileSync path "null"
  | some _, .undefined => .error .typeError
  | none, _ => .error .typeError

/-- Method `_persistAuth()`: the `catch` swallows whatever the write throws, and the world
stays as it was. -/
def _persistAuth (J : JSON) (a : Auth) (w : World) : World :=
  match writeAuthFile J a w with
  | .ok w' => w'
  | .error _ => w

/-- Method `_addToken()`; `token` is the string returned by `genRandomString()`. -/
def _addToken (a : Auth) (token : Token) : Except JSError Auth := do
  let s ← a.authObject
  let s' : AuthState :=
    { s with tokens := s.tokens.set token { accessToken := token.val, refreshToken := token.val } }
  return { a with _auth := .state s' }

/-- Method `_migrateOldStorageLocation()`. -/
def _migrateOldStorageLocation (J : JSON) (a : Auth) (w : World) : Auth × World :=
  if !w.existsSync a._authFilename then
    let a1 : Auth := { a with _auth := w.getItemSync }
    if a1._auth.truthy then
      let w1 := _persistAuth J a1 w
      (a1, w1.removeItem)
    else (a1, w)
  else (a, w)

/-- Method `loadAuth(nodeId, userDir)`; `token` is what `genRandomString()` would return.
The third component is the error of the `'auth'` event emitted by the `catch` block. -/
def loadAuth (J : JSON) (a : Auth) (w : World) (nodeId userDir : String) (token : Token) :
    Auth × World × Option JSError :=
  let path := userDir ++ "/google-smarthome-auth-" ++ nodeId ++ ".json"
  let a0 : Auth := { a with _authFilename := some path }
  let (a1, w1) := _migrateOldStorageLocation J a0 w
  match w1.readFileSync path with
  | .error err => (a1, w1, some err)
  | .ok authFile =>
    match J.parse authFile with
    | none => (a1, w1, some .syntaxError)
    | some parsed =>
      let a2 : Auth := { a1 with _auth := .state parsed }
      if a2._auth.typeofUndefined then
        let a3 : Auth := { a2 with _auth := .state { tokens := .empty, authcodes := .empty } }
        match a3._addToken token with
        | .ok a4 => (a4, _persistAuth J a4 w1, none)
        | .error err => (a3, w1, some err)
      else (a2, w1, none)

end Auth

/-- The `accessToken` of the first record of the token map is a key of the token map; an
empty token map has no first record. -/
def firstTokenListed (s : AuthState) : Bool :=
  match s.tokens.props with
  | [] => true
  | (_, r) :: _ => (s.tokens.getOwn r.accessToken).isSome

/-- The first record of the token map is stored under its own `accessToken`, as `_addToken`
stores it. -/
def firstTokenKeyed (s : AuthState) : Bool :=
  match s.tokens.props with
  | [] => true
  | (k, r) :: _ => r.accessToken == k

/-! ## Sample data -/

/-- A generated token. -/
def tokenT1 : Token := ⟨"T1", by decide⟩

/-- A generated code. -/
def codeC1 : Token := ⟨"C1", by decide⟩

/-- The state the seeding code builds: empty maps, then `_addToken`. -/
def seededState (t : Token) : AuthState :=
  { tokens := (JSObject.empty).set t { accessToken := t.val, refreshToken := t.val },
    authcodes := .empty }

/-- An engine holding the seeded state with token `T1`. -/
def seededAuth : Auth := { Auth.new with _auth := .state (seededState tokenT1) }

/-- The seeded state after `generateAuthCode` at time 0 with code `C1`. -/
def issuedState : AuthState :=
  { tokens := (seededState tokenT1).tokens,
    authcodes := (JSObject.empty).set codeC1 { expiresAt := 0 + (60 * 10000) } }

/-- An engine holding `issuedState`. -/
def issuedAuth : Auth := { Auth.new with _auth := .state issuedState }

/-- A state as a hand-edited auth file can hold it: the record stored under `k1` names
another access token. -/
def editedState : AuthState :=
  { tokens := ⟨[("k1", { accessToken := "other", refreshToken := "other" })]⟩,
    authcodes := ⟨[("C1", { expiresAt := 1000 })]⟩ }

/-- An engine holding `editedState`. -/
def editedAuth : Auth := { Auth.new with _auth := .state editedState }

/-- A world with no file and no legacy entry. -/
def emptyWorld : World :=
  { files := fun _ => none, writable := fun _ => true, auth_auth := none }

/-- A world with no file and a legacy entry holding the seeded state. -/
def legacyWorld : World :=
  { files := fun _ => none, writable := fun _ => true,
    auth_auth := some (seededState tokenT1) }

/-- A world with no file, a legacy entry holding the seeded state, and no path at which a
write succeeds (the directory is missing or read-only). -/
def readOnlyWorld : World :=
  { files := fun _ => none, writable := fun _ => false,
    auth_auth := some (seededState tokenT1) }

/-- A new object whose `_authFilename` has been set. -/
def namedAuth : Auth := { Auth.new with _authFilename := some "auth.json" }

/-- A stand-in for `JSON` on sample data: nothing parses, every state is written as the
same text. -/
def sampleJSON : JSON := { parse := fun _ => none, stringify := fun _ => "state" }

end SmartHome

/-! ## Lemmas on plain objects -/

namespace SmartHome

theorem getOwnProps_replaceOwn {α : Type} (k : String) (v : α) (l : List (String × α))
    (h : (getOwnProps k l).isSome = true) : getOwnProps k (replaceOwn k v l) = some v := by
  induction l with
  | nil => simp [getOwnProps] at h
  | cons p rest ih =>
    obtain ⟨k', v'⟩ := p
    by_cases hk : k' = k
    · simp [replaceOwn, getOwnProps, hk]
    · simp only [getOwnProps, hk, if_false] at h
      simp [replaceOwn, getOwnProps, hk, ih h]

theorem getOwnProps_insertIndexed {α : Type} (i : Nat) (k : String) (v : α)
    (l : List (String × α)) (h : getOwnProps k l = none) :
    getOwnProps k (insertIndexed i k v l) = some v := by
  induction l with
  | nil => simp [insertIndexed, getOwnProps]
  | cons p rest ih =>
    obtain ⟨k', v'⟩ := p
    by_cases hk : k' = k
    · simp [getOwnProps, hk] at h
    · simp only [getOwnProps, hk, if_false] at h
      unfold insertIndexed
      cases arrayIndex k' with
      | none => simp [getOwnProps]
      | some j =>
        by_cases hj : j < i
        · simp [hj, getOwnProps, hk, ih h]
        · simp [hj, getOwnProps]

theorem getOwnProps_append_new {α : Type} (k : String) (v : α) (l : List (String × α))
    (h : getOwnProps k l = none) : getOwnProps k (l ++ [(k, v)]) = some v := by
  induction l with
  | nil => simp [getOwnProps]
  | cons p rest ih =>
    obtain ⟨k', v'⟩ := p
    by_cases hk : k' = k
    · simp [getOwnProps, hk] at h
    · simp only [getOwnProps, hk, if_false] at h
      simp [getOwnProps, hk, ih h]

/-- After `o[k] = v` the object has the own property `k` with value `v`. -/
theorem JSObject.getOwn_set {α : Type} (o : JSObject α) (k : Token) (v : α) :
    (o.set k v).getOwn k.val = some v := by
  unfold JSObject.set
  by_cases h : (o.getOwn k.val).isSome = true
  · simp only [h, if_true]
    exact getOwnProps_replaceOwn k.val v o.props h
  · simp only [h]
    have hn : getOwnProps k.val o.props = none := by
      simpa [JSObject.getOwn] using h
    cases arrayIndex k.val with
    | none => exact getOwnProps_append_new k.val v o.props hn
    | some i => exact getOwnProps_insertIndexed i k.val v o.props hn

/-- Reading `o[k]` right after `o[k] = v` gives `v`. -/
theorem JSObject.get_set {α : Type} (o : JSObject α) (k : Token) (v : α) :
    (o.set k v).get k.val = .own v := by
  simp [JSObject.get, JSObject.getOwn_set]

/-- An own key is read as the own value. -/
theorem JSObject.get_of_getOwn {α : Type} (o : JSObject α) (k : String) (v : α)
    (h : o.getOwn k = some v) : o.get k = .own v := by
  simp [JSObject.get, h]

/-- The first key of a non-empty object reads as the value of its first property. -/
theorem JSObject.get_firstKey {α : Type} (k : String) (v : α) (rest : List (String × α)) :
    (JSObject.mk ((k, v) :: rest)).get (Auth.firstKey (JSObject.mk ((k, v) :: rest)).keys)
      = .own v := by
  simp [JSObject.get, JSObject.getOwn, JSObject.keys, Auth.firstKey, getOwnProps]

/-! ## Credential checks -/

/-- Claim C7: after `setUsernamePassword(U, P)`, `isValidUser(u, p)` is true exactly when
`u` is `U` and `p` is `P`, compared as strings without any normalisation. -/
theorem Auth.isValidUser_iff (a : Auth) (U P u p : String) :
    (a.setUsernamePassword U P).isValidUser u p = true ↔ u = U ∧ p = P := by
  unfold Auth.isValidUser Auth.setUsernamePassword
  by_cases h1 : U = u
  · by_cases h2 : P = p
    · simp [h1, h2]
    · have h2' : ¬ p = P := fun h => h2 h.symm
      simp [h1, h2, h2']
  · have h1' : ¬ u = U := fun h => h1 h.symm
    simp [h1, h1']

/-- Claim C6: after `setClientIdSecret(I, S)`, `isValidClient` called with an id and an
optional secret is true exactly when the id is `I` and the secret is omitted or is `S`. -/
theorem Auth.isValidClient_iff (a : Auth) (I S clientId : String)
    (clientSecret : Option String) :
    (a.setClientIdSecret I S).isValidClient clientId clientSecret = true
      ↔ clientId = I ∧ (clientSecret = none ∨ clientSecret = some S) := by
  unfold Auth.isValidClient Auth.setClientIdSecret
  by_cases h1 : I = clientId
  · cases clientSecret with
    | none => simp [h1]
    | some secret =>
      by_cases h2 : S = secret
      · simp [h1, h2]
      · have h2' : ¬ secret = S := fun h => h2 h.symm
        simp [h1, h2, h2']
  · have h1' : ¬ clientId = I := fun h => h1 h.symm
    simp [h1, h1']

/-- A correct id with a supplied secret that differs from the configured one is refused. -/
theorem Auth.isValidClient_wrong_secret (a : Auth) (I S secret : String) (h : secret ≠ S) :
    (a.setClientIdSecret I S).isValidClient I (some secret) = false := by
  have h' : ¬ S = secret := fun e => h e.symm
  simp [Auth.isValidClient, Auth.setClientIdSecret, h']

/-! ## Exchange of a code -/

/-- Outcome of `getAccessToken` on an authorization state, written out. -/
theorem Auth.getAccessToken_state (a : Auth) (s : AuthState) (now : Int) (code : String)
    (hs : a._auth = .state s) :
    a.getAccessToken now code =
      .ok (if (s.authcodes.get code).truthy = false then ExchangeResult.jsFalse
           else if Auth.dateLt (Auth.newDateExpiresAt (s.authcodes.get code)) now = true then
             ExchangeResult.jsFalse
           else
             match s.tokens.get (Auth.firstKey s.tokens.keys) with
             | .undefined => ExchangeResult.jsFalse
             | .own r =>
               ExchangeResult.returnToken
                 { token_type := "bearer", access_token := some r.accessToken,
                   refresh_token := some r.refreshToken }
             | .inherited _ =>
               ExchangeResult.returnToken
                 { token_type := "bearer", access_token := none, refresh_token := none },
           a) := by
  unfold Auth.getAccessToken Auth.authObject
  rw [hs]
  simp only [bind, Except.bind, pure, Except.pure]
  cases h1 : (s.authcodes.get code).truthy
  · simp
  · cases h2 : Auth.dateLt (Auth.newDateExpiresAt (s.authcodes.get code)) now
    · cases h3 : s.tokens.get (Auth.firstKey s.tokens.keys) <;> simp
    · simp

/-- Claim C4: on a state whose token map starts with the entry `(k, r)`, for a code `c`
stored with expiry instant `e`, `getAccessToken(c)` at time `now` returns `false` exactly
when `now > e`, and for `now <= e` returns the bearer object made from the `accessToken` and
`refreshToken` of `r`. -/
theorem Auth.getAccessToken_stored_code (a : Auth) (s : AuthState) (now e : Int)
    (c k : String) (r : TokenRecord) (rest : List (String × TokenRecord))
    (hs : a._auth = .state s) (ht : s.tokens.props = (k, r) :: rest)
    (hc : s.authcodes.getOwn c = some { expiresAt := e }) :
    (a.getAccessToken now c = .ok (.jsFalse, a) ↔ now > e) ∧
    (now ≤ e → a.getAccessToken now c =
      .ok (.returnToken { token_type := "bearer", access_token := some r.accessToken,
                          refresh_token := some r.refreshToken }, a)) := by
  have hget : s.authcodes.get c = .own { expiresAt := e } := JSObject.get_of_getOwn _ _ _ hc
  have htok : s.tokens.get (Auth.firstKey s.tokens.keys) = .own r := by
    have := JSObject.get_firstKey k r rest
    rw [← ht] at this
    exact this
  rw [Auth.getAccessToken_state a s now c hs, hget, htok]
  by_cases hlt : e < now
  · simp [Member.truthy, Auth.newDateExpiresAt, Auth.dateLt, hlt]
  · simp [Member.truthy, Auth.newDateExpiresAt, Auth.dateLt, hlt]

/-- Witness of claim C4: the edited state, whose code `C1` expires at 1000, asked at 1000. -/
theorem Auth.getAccessToken_stored_code_witness :
    (editedAuth.getAccessToken 1000 "C1" = .ok (.jsFalse, editedAuth) ↔ (1000 : Int) > 1000) ∧
    ((1000 : Int) ≤ 1000 → editedAuth.getAccessToken 1000 "C1" =
      .ok (.returnToken { token_type := "bearer", access_token := some "other",
                          refresh_token := some "other" }, editedAuth)) :=
  Auth.getAccessToken_stored_code editedAuth editedState 1000 1000 "C1" "k1"
    { accessToken := "other", refreshToken := "other" } [] rfl rfl rfl

/-- Claim C1, evaluated on the code: on the seeded state (one token `T1`, no auth code at
all) `getAccessToken("constructor")` does not return `false` at any time; it returns the
token pair. The lookup finds `Object.prototype.constructor`, whose missing `expiresAt` makes
an invalid date that is never in the past. -/
theorem Auth.getAccessToken_constructor (now : Int) :
    seededAuth.getAccessToken now "constructor" =
        .ok (.returnToken { token_type := "bearer", access_token := some "T1",
                            refresh_token := some "T1" }, seededAuth)
      ∧ (seededState tokenT1).authcodes.getOwn "constructor" = none
      ∧ (seededState tokenT1).authcodes.keys = [] := by
  refine ⟨?_, by decide, by decide⟩
  rw [Auth.getAccessToken_state seededAuth (seededState tokenT1) now "constructor" rfl]
  have h1 : (seededState tokenT1).authcodes.get "constructor" = .inherited "constructor" := by
    decide
  have h2 : (seededState tokenT1).tokens.get (Auth.firstKey (seededState tokenT1).tokens.keys)
      = .own { accessToken := "T1", refreshToken := "T1" } := by decide
  rw [h1, h2]
  simp [Member.truthy, Auth.newDateExpiresAt, Auth.dateLt]

/-- Claim C2, evaluated on the code: on the seeded state, whose only token is `T1`,
`isValidAccessToken("constructor")` returns `true` although `"constructor"` is no key of the
token map; `"T1"` is accepted and `"bogus"` refused. -/
theorem Auth.isValidAccessToken_constructor :
    seededAuth.isValidAccessToken "constructor" = .ok true
      ∧ (seededState tokenT1).tokens.keys = ["T1"]
      ∧ seededAuth.isValidAccessToken "T1" = .ok true
      ∧ seededAuth.isValidAccessToken "bogus" = .ok false := by
  decide

/-- Outcome of `isValidAccessToken` on an authorization state, written out. -/
theorem Auth.isValidAccessToken_state (a : Auth) (s : AuthState) (t : String)
    (hs : a._auth = .state s) :
    a.isValidAccessToken t = .ok (s.tokens.get t).truthy := by
  unfold Auth.isValidAccessToken Auth.authObject
  rw [hs]
  simp only [bind, Except.bind, pure, Except.pure]
  cases (s.tokens.get t).truthy <;> simp

/-- Every key of the token map is accepted by `isValidAccessToken`. -/
theorem Auth.isValidAccessToken_of_key (a : Auth) (s : AuthState) (t : String)
    (r : TokenRecord) (hs : a._auth = .state s) (hk : s.tokens.getOwn t = some r) :
    a.isValidAccessToken t = .ok true := by
  rw [Auth.isValidAccessToken_state a s t hs, JSObject.get_of_getOwn _ _ _ hk]
  rfl

/-- A string that is neither a key of the token map nor a property name of
`Object.prototype` is refused by `isValidAccessToken`. -/
theorem Auth.isValidAccessToken_of_not_key (a : Auth) (s : AuthState) (t : String)
    (hs : a._auth = .state s) (hk : s.tokens.getOwn t = none)
    (hp : t ∉ objectPrototypeNames) :
    a.isValidAccessToken t = .ok false := by
  rw [Auth.isValidAccessToken_state a s t hs]
  simp [JSObject.get, hk, hp, Member.truthy]

/-- What `isValidAccessToken` accepts on an authorization state: the keys of the token map
and the property names of `Object.prototype`. -/
theorem Auth.isValidAccessToken_iff (a : Auth) (s : AuthState) (t : String)
    (hs : a._auth = .state s) :
    a.isValidAccessToken t = .ok true
      ↔ (s.tokens.getOwn t).isSome = true ∨ t ∈ objectPrototypeNames := by
  rw [Auth.isValidAccessToken_state a s t hs]
  cases hk : s.tokens.getOwn t with
  | some r => simp [JSObject.get, hk, Member.truthy]
  | none =>
    by_cases hp : t ∈ objectPrototypeNames
    · simp [JSObject.get, hk, hp, Member.truthy]
    · simp [JSObject.get, hk, hp, Member.truthy]

/-- A code that is neither a key of the auth-code map nor a property name of
`Object.prototype` is refused by `getAccessToken`. -/
theorem Auth.getAccessToken_unknown_code (a : Auth) (s : AuthState) (now : Int)
    (code : String) (hs : a._auth = .state s) (hk : s.authcodes.getOwn code = none)
    (hp : code ∉ objectPrototypeNames) :
    a.getAccessToken now code = .ok (.jsFalse, a) := by
  rw [Auth.getAccessToken_state a s now code hs]
  simp [JSObject.get, hk, hp, Member.truthy]

/-! ## Issuing a code -/

/-- Claim C5: on an authorization state, at time `now` and with `c` the generated string,
`generateAuthCode()` returns `c`, leaves the token map alone and leaves `c` in the auth-code
map with `expiresAt = now + 600000` ms (600 s, 10 min); `getAuthCode(c)` right afterwards
returns that record. -/
theorem Auth.generateAuthCode_spec (a : Auth) (s : AuthState) (now : Int) (c : Token)
    (hs : a._auth = .state s) :
    ∃ s' : AuthState,
      a.generateAuthCode now c = .ok (c.val, { a with _auth := .state s' })
      ∧ s'.tokens = s.tokens
      ∧ s'.authcodes.getOwn c.val = some { expiresAt := now + 600000 }
      ∧ ({ a with _auth := .state s' } : Auth).getAuthCode c.val
          = .ok (.own { expiresAt := now + 600000 })
      ∧ (600000 : Int) = 600 * 1000 ∧ (600 : Int) = 10 * 60 := by
  refine ⟨{ s with authcodes := s.authcodes.set c { expiresAt := now + (60 * 10000) } },
    ?_, rfl, ?_, ?_, by norm_num, by norm_num⟩
  · unfold Auth.generateAuthCode Auth.authObject
    rw [hs]
    rfl
  · have h := JSObject.getOwn_set s.authcodes c { expiresAt := now + (60 * 10000) }
    simpa using h
  · have h := JSObject.get_set s.authcodes c { expiresAt := now + (60 * 10000) }
    simp only [Auth.getAuthCode, Auth.authObject, bind, Except.bind, pure, Except.pure]
    rw [h]
    norm_num

/-- Witness of claim C5: code `C1` issued at time 0 on the seeded state. -/
theorem Auth.generateAuthCode_spec_witness :
    ∃ s' : AuthState,
      seededAuth.generateAuthCode 0 codeC1 = .ok (codeC1.val, { seededAuth with _auth := .state s' })
      ∧ s'.tokens = (seededState tokenT1).tokens
      ∧ s'.authcodes.getOwn codeC1.val = some { expiresAt := 0 + 600000 }
      ∧ ({ seededAuth with _auth := .state s' } : Auth).getAuthCode codeC1.val
          = .ok (.own { expiresAt := 0 + 600000 })
      ∧ (600000 : Int) = 600 * 1000 ∧ (600 : Int) = 10 * 60 :=
  Auth.generateAuthCode_spec seededAuth (seededState tokenT1) 0 codeC1 rfl

/-! ## The exchange does not consume the code -/

/-- Claim C9: on an authorization state `getAccessToken(code)` returns with the state it
started from (token map and auth-code map included); so when the exchange of a code gives a
token pair at time `t1`, the exchange at any `t2` with `t1 <= t2`, not later than the
`expiresAt` of the stored code, gives the same pair again. -/
theorem Auth.getAccessToken_not_consumed (a : Auth) (s : AuthState) (code : String)
    (hs : a._auth = .state s) :
    (∀ now : Int, ∃ res, a.getAccessToken now code = .ok (res, a)) ∧
    (∀ (t1 t2 : Int) (p : ReturnToken) (a' : Auth),
      a.getAccessToken t1 code = .ok (.returnToken p, a') →
      t1 ≤ t2 →
      (∀ r, s.authcodes.getOwn code = some r → t2 ≤ r.expiresAt) →
      a' = a ∧ a'.getAccessToken t2 code = .ok (.returnToken p, a')) := by
  constructor
  · intro now
    exact ⟨_, Auth.getAccessToken_state a s now code hs⟩
  · intro t1 t2 p a' h1 _ hexp
    rw [Auth.getAccessToken_state a s t1 code hs] at h1
    have ha : a' = a := by
      injection h1 with h1
      exact (congrArg Prod.snd h1).symm
    subst ha
    refine ⟨rfl, ?_⟩
    rw [Auth.getAccessToken_state a' s t2 code hs]
    cases hg : s.authcodes.getOwn code with
    | some r =>
      have hget : s.authcodes.get code = .own r := JSObject.get_of_getOwn _ _ _ hg
      have h2 : ¬ r.expiresAt < t2 := by
        have := hexp r hg
        omega
      rw [hget] at h1 ⊢
      simp only [Member.truthy, Auth.newDateExpiresAt, Auth.dateLt] at h1 ⊢
      by_cases h3 : r.expiresAt < t1
      · simp [h3] at h1
      · simpa [h3, h2] using h1
    | none =>
      have hget : s.authcodes.get code
          = if code ∈ objectPrototypeNames then .inherited code else .undefined := by
        simp [JSObject.get, hg]
      rw [hget] at h1 ⊢
      by_cases hp : code ∈ objectPrototypeNames
      · simpa [hp, Member.truthy, Auth.newDateExpiresAt, Auth.dateLt] using h1
      · simp [hp, Member.truthy] at h1

/-- Witness of claim C9: on the edited state the code `C1`, which expires at 1000, is
exchanged at 5 and again at 1000. -/
theorem Auth.getAccessToken_not_consumed_witness :
    editedAuth.getAccessToken 1000 "C1" =
      .ok (.returnToken { token_type := "bearer", access_token := some "other",
                          refresh_token := some "other" }, editedAuth) :=
  ((Auth.getAccessToken_not_consumed editedAuth editedState "C1" rfl).2 5 1000
    { token_type := "bearer", access_token := some "other", refresh_token := some "other" }
    editedAuth (by decide) (by decide)
    (by intro r hr; cases hr; decide)).2

/-! ## A token handed out is a token accepted -/

/-- A property list has an own property `k` exactly when `k` is among its keys. -/
theorem getOwnProps_isSome_iff {α : Type} (k : String) (l : List (String × α)) :
    (getOwnProps k l).isSome = true ↔ k ∈ l.map Prod.fst := by
  induction l with
  | nil => simp [getOwnProps]
  | cons p rest ih =>
    obtain ⟨k', v⟩ := p
    by_cases hk : k' = k
    · simp [getOwnProps, hk]
    · have hk' : ¬ k = k' := fun e => hk e.symm
      simp [getOwnProps, hk, hk', ih]

/-- A token object returned by `getAccessToken` is made from the first record of the token
map, and the state is left as it was. -/
theorem Auth.getAccessToken_pair (a a' : Auth) (s : AuthState) (now : Int)
    (code : String) (p : ReturnToken) (hs : a._auth = .state s)
    (h : a.getAccessToken now code = .ok (.returnToken p, a')) :
    ∃ r, (s.tokens.props.head?).map Prod.snd = some r
      ∧ p = { token_type := "bearer", access_token := some r.accessToken,
              refresh_token := some r.refreshToken }
      ∧ a' = a := by
  rw [Auth.getAccessToken_state a s now code hs] at h
  injection h with h
  have ha : a' = a := (congrArg Prod.snd h).symm
  have hr := congrArg Prod.fst h
  simp only at hr
  obtain ⟨⟨props⟩, codes⟩ := s
  cases props with
  | nil =>
    have hu : (JSObject.mk ([] : List (String × TokenRecord))).get
        (Auth.firstKey (JSObject.mk ([] : List (String × TokenRecord))).keys) = .undefined := by
      decide
    simp only [hu] at hr
    split at hr
    · cases hr
    · split at hr <;> cases hr
  | cons kr rest =>
    obtain ⟨k, r⟩ := kr
    have hg := JSObject.get_firstKey k r rest
    simp only [hg] at hr
    refine ⟨r, by simp, ?_, ha⟩
    split at hr
    · cases hr
    · split at hr
      · cases hr
      · injection hr with hr
        exact hr.symm


/-- Counterexample to claim C10 as stated: on a state as a hand-edited auth file gives it,
the exchange of code `C1` hands out the access token `other`, which is no key of the token
map and which `isValidAccessToken` refuses. -/
theorem Auth.getAccessToken_token_refused :
    editedAuth.getAccessToken 5 "C1" =
        .ok (.returnToken { token_type := "bearer", access_token := some "other",
                            refresh_token := some "other" }, editedAuth)
      ∧ editedState.tokens.keys = ["k1"]
      ∧ editedAuth.isValidAccessToken "other" = .ok false := by
  decide

/-- Claim C10, amended: on an authorization state in which the `accessToken` of the first
record of the token map is a key of the token map, whenever `getAccessToken(code)` returns
a token object, its `access_token` is a string present in the token map, and
`isValidAccessToken` accepts it. -/
theorem Auth.getAccessToken_token_valid (a a' : Auth) (s : AuthState) (now : Int)
    (code : String) (p : ReturnToken) (hs : a._auth = .state s)
    (hk : firstTokenListed s = true)
    (h : a.getAccessToken now code = .ok (.returnToken p, a')) :
    ∃ t, p.access_token = some t ∧ t ∈ s.tokens.keys ∧ a'._auth = .state s
      ∧ a'.isValidAccessToken t = .ok true := by
  obtain ⟨r, hfirst, hp, ha⟩ := Auth.getAccessToken_pair a a' s now code p hs h
  subst ha
  have hl : (s.tokens.getOwn r.accessToken).isSome = true := by
    obtain ⟨⟨props⟩, codes⟩ := s
    cases props with
    | nil => simp at hfirst
    | cons kr rest =>
      obtain ⟨k, r'⟩ := kr
      have hr : r' = r := by simpa using hfirst
      subst hr
      simpa [firstTokenListed] using hk
  refine ⟨r.accessToken, by rw [hp], ?_, hs, ?_⟩
  · exact (getOwnProps_isSome_iff r.accessToken s.tokens.props).1 hl
  · obtain ⟨r2, hr2⟩ := Option.isSome_iff_exists.1 hl
    exact Auth.isValidAccessToken_of_key a' s r.accessToken r2 hs hr2

/-- Witness of claim C10 as amended: the seeded state with code `C1` issued at time 0,
exchanged at time 5. -/
theorem Auth.getAccessToken_token_valid_witness :
    ∃ t, (ReturnToken.mk "bearer" (some "T1") (some "T1")).access_token = some t
      ∧ t ∈ issuedState.tokens.keys ∧ issuedAuth._auth = .state issuedState
      ∧ issuedAuth.isValidAccessToken t = .ok true :=
  Auth.getAccessToken_token_valid issuedAuth issuedAuth issuedState 5 "C1"
    { token_type := "bearer", access_token := some "T1", refresh_token := some "T1" }
    rfl (by decide) (by decide)

/-- The hypothesis of the amended claim C10 cannot be dropped: where the `accessToken` of
the first record is no key of the token map, every token object handed out carries an
`access_token` that is absent from the token map. -/
theorem Auth.getAccessToken_token_absent (a a' : Auth) (s : AuthState) (now : Int)
    (code : String) (p : ReturnToken) (hs : a._auth = .state s)
    (hk : firstTokenListed s = false)
    (h : a.getAccessToken now code = .ok (.returnToken p, a')) :
    ∃ t, p.access_token = some t ∧ t ∉ s.tokens.keys := by
  obtain ⟨r, hfirst, hp, _⟩ := Auth.getAccessToken_pair a a' s now code p hs h
  refine ⟨r.accessToken, by rw [hp], ?_⟩
  intro hmem
  have hl := (getOwnProps_isSome_iff r.accessToken s.tokens.props).2 hmem
  obtain ⟨⟨props⟩, codes⟩ := s
  cases props with
  | nil => simp at hfirst
  | cons kr rest =>
    obtain ⟨k, r'⟩ := kr
    have hr : r' = r := by simpa using hfirst
    subst hr
    simp [firstTokenListed, JSObject.getOwn] at hk
    simp [hk] at hl

/-- A first record stored under its own `accessToken` names a key of the token map. -/
theorem firstTokenListed_of_keyed (s : AuthState) (h : firstTokenKeyed s = true) :
    firstTokenListed s = true := by
  obtain ⟨⟨props⟩, codes⟩ := s
  cases props with
  | nil => rfl
  | cons kr rest =>
    obtain ⟨k, r⟩ := kr
    have hk : r.accessToken = k := by simpa [firstTokenKeyed] using h
    simp [firstTokenListed, JSObject.getOwn, getOwnProps, hk]

/-- The scenario of the specification: after seeding `T1` and issuing `C1` at time 0, the
exchange of `C1` gives the pair of `T1`, `T1` is accepted and `bogus` is refused. -/
theorem Auth.scenario :
    seededAuth.generateAuthCode 0 codeC1 = .ok ("C1", issuedAuth)
      ∧ issuedAuth.getAccessToken 0 "C1" =
          .ok (.returnToken { token_type := "bearer", access_token := some "T1",
                              refresh_token := some "T1" }, issuedAuth)
      ∧ issuedAuth.getAccessToken 600001 "C1" = .ok (.jsFalse, issuedAuth)
      ∧ issuedAuth.isValidAccessToken "T1" = .ok true
      ∧ issuedAuth.isValidAccessToken "bogus" = .ok false := by
  decide

/-- The state seeded by `_addToken` on empty maps stores its token under itself. -/
theorem firstTokenKeyed_seededState (t : Token) : firstTokenKeyed (seededState t) = true := by
  unfold firstTokenKeyed seededState JSObject.set
  simp only [JSObject.empty, JSObject.getOwn, getOwnProps, Option.isSome_none]
  cases arrayIndex t.val <;> simp [insertIndexed]

/-! ## Loading and migration -/

/-- Claim C3, evaluated on the code: with no auth file and no legacy entry, `loadAuth` on a
new object ends in the `catch` block. It emits the `ENOENT` error, writes no file and leaves
`_auth` `undefined` (the answer of `getItemSync`), not a state with one token. -/
theorem Auth.loadAuth_no_file (J : JSON) (nodeId userDir : String) (token : Token) :
    Auth.loadAuth J Auth.new emptyWorld nodeId userDir token =
      ({ Auth.new with
          _auth := .undefined,
          _authFilename := some (userDir ++ "/google-smarthome-auth-" ++ nodeId ++ ".json") },
       emptyWorld, some .enoent) := by
  rfl

/-- With no auth file and no legacy entry, whatever the object held before, `loadAuth`
leaves `_auth` `undefined`, creates no file and reports `ENOENT`. -/
theorem Auth.loadAuth_absent (J : JSON) (a : Auth) (w : World) (nodeId userDir : String)
    (token : Token)
    (hf : w.files (userDir ++ "/google-smarthome-auth-" ++ nodeId ++ ".json") = none)
    (hl : w.auth_auth = none) :
    Auth.loadAuth J a w nodeId userDir token =
      ({ a with
          _auth := .undefined,
          _authFilename := some (userDir ++ "/google-smarthome-auth-" ++ nodeId ++ ".json") },
       w, some .enoent) := by
  simp [Auth.loadAuth, Auth._migrateOldStorageLocation, World.existsSync, World.getItemSync,
    World.readFileSync, AuthValue.truthy, hf, hl]

/-- With an auth file whose text `JSON.parse` rejects, `loadAuth` leaves `_auth` as it was,
leaves the world as it was and reports the `SyntaxError`. -/
theorem Auth.loadAuth_unparsable (J : JSON) (a : Auth) (w : World) (nodeId userDir : String)
    (token : Token) (text : String)
    (hf : w.files (userDir ++ "/google-smarthome-auth-" ++ nodeId ++ ".json") = some text)
    (hp : J.parse text = none) :
    Auth.loadAuth J a w nodeId userDir token =
      ({ a with
          _authFilename := some (userDir ++ "/google-smarthome-auth-" ++ nodeId ++ ".json") },
       w, some .syntaxError) := by
  simp [Auth.loadAuth, Auth._migrateOldStorageLocation, World.existsSync,
    World.readFileSync, hf, hp]

/-- The seeding branch of `loadAuth` is never taken: the outcome does not depend on the
string the random generator would give. -/
theorem Auth.loadAuth_never_seeds (J : JSON) (a : Auth) (w : World) (nodeId userDir : String)
    (t1 t2 : Token) :
    Auth.loadAuth J a w nodeId userDir t1 = Auth.loadAuth J a w nodeId userDir t2 := by
  unfold Auth.loadAuth
  simp only
  split
  · rfl
  · split
    · rfl
    · simp [AuthValue.typeofUndefined]

/-- Claim C8, evaluated on the code: with the auth file named but in a place where the
write fails, no file yet and a legacy entry, one run of `_migrateOldStorageLocation` takes
the legacy state into memory, writes no file and still removes the legacy entry; a second
run then finds neither file nor entry and sets `_auth` to `undefined`. Two runs do not
leave what one run leaves, and the migrated data is held by no store. -/
theorem Auth.migrate_failed_write (J : JSON) :
    (Auth._migrateOldStorageLocation J namedAuth readOnlyWorld).1._auth
        = .state (seededState tokenT1)
      ∧ (Auth._migrateOldStorageLocation J namedAuth readOnlyWorld).2.files "auth.json" = none
      ∧ (Auth._migrateOldStorageLocation J namedAuth readOnlyWorld).2.auth_auth = none
      ∧ (Auth._migrateOldStorageLocation J
            (Auth._migrateOldStorageLocation J namedAuth readOnlyWorld).1
            (Auth._migrateOldStorageLocation J namedAuth readOnlyWorld).2).1._auth
          = .undefined
      ∧ Auth._migrateOldStorageLocation J
            (Auth._migrateOldStorageLocation J namedAuth readOnlyWorld).1
            (Auth._migrateOldStorageLocation J namedAuth readOnlyWorld).2
          ≠ Auth._migrateOldStorageLocation J namedAuth readOnlyWorld := by
  have h1 : (Auth._migrateOldStorageLocation J namedAuth readOnlyWorld).1._auth
      = .state (seededState tokenT1) := rfl
  have h4 : (Auth._migrateOldStorageLocation J
      (Auth._migrateOldStorageLocation J namedAuth readOnlyWorld).1
      (Auth._migrateOldStorageLocation J namedAuth readOnlyWorld).2).1._auth
        = .undefined := rfl
  refine ⟨h1, rfl, rfl, h4, ?_⟩
  intro h
  have h5 := congrArg (fun r => r.1._auth) h
  simp only [h1, h4] at h5
  cases h5

/-- The same happens when `_authFilename` is still `null`: the write throws, the legacy
entry is removed all the same, and a second run sets `_auth` to `undefined`. -/
theorem Auth.migrate_unnamed (J : JSON) :
    (Auth._migrateOldStorageLocation J Auth.new legacyWorld).1._auth
        = .state (seededState tokenT1)
      ∧ (Auth._migrateOldStorageLocation J Auth.new legacyWorld).2.auth_auth = none
      ∧ (Auth._migrateOldStorageLocation J
            (Auth._migrateOldStorageLocation J Auth.new legacyWorld).1
            (Auth._migrateOldStorageLocation J Auth.new legacyWorld).2).1._auth
          = .undefined :=
  ⟨rfl, rfl, rfl⟩

/-- When the auth file exists, a run of `_migrateOldStorageLocation` changes neither the
object nor the files nor the legacy entry. -/
theorem Auth.migrate_noop_of_exists (J : JSON) (a : Auth) (w : World)
    (h : w.existsSync a._authFilename = true) :
    Auth._migrateOldStorageLocation J a w = (a, w) := by
  simp [Auth._migrateOldStorageLocation, h]

/-- Where the auth file is named and the write to it succeeds, running
`_migrateOldStorageLocation` twice leaves object, files and legacy entry as running it once
does. -/
theorem Auth.migrate_idempotent_of_writable (J : JSON) (a : Auth) (w : World) (path : String)
    (hp : a._authFilename = some path) (hw : w.writable path = true) :
    Auth._migrateOldStorageLocation J (Auth._migrateOldStorageLocation J a w).1
        (Auth._migrateOldStorageLocation J a w).2
      = Auth._migrateOldStorageLocation J a w := by
  cases hf : w.files path with
  | some text =>
    simp [Auth._migrateOldStorageLocation, World.existsSync, hp, hf]
  | none =>
    cases hl : w.auth_auth with
    | none =>
      simp [Auth._migrateOldStorageLocation, World.existsSync, World.getItemSync,
        AuthValue.truthy, hp, hf, hl]
    | some st =>
      simp [Auth._migrateOldStorageLocation, World.existsSync, World.getItemSync,
        World.removeItem, World.writeFileSync, Auth._persistAuth, Auth.writeAuthFile,
        AuthValue.truthy, hp, hf, hl, hw]

/-- What the first run does on a sample where the write succeeds: the legacy state is taken
into memory, written to the auth file, and the legacy entry is removed. -/
theorem Auth.migrate_sample :
    (Auth._migrateOldStorageLocation sampleJSON namedAuth legacyWorld).1._auth
        = .state (seededState tokenT1)
      ∧ (Auth._migrateOldStorageLocation sampleJSON namedAuth legacyWorld).2.files "auth.json"
        = some "state"
      ∧ (Auth._migrateOldStorageLocation sampleJSON namedAuth legacyWorld).2.auth_auth = none := by
  decide

end SmartHome
